import Mathlib

/-!
Formal model of the `dstruct` repository (files `src/dstruct.py` and
`src/utils.py`).

The embedding represents Python classes as an inductive type `PyClass`
(carrying the class name, base list, the `RequiredAttribute` markers found in
the class body, an optional literal `required_attributes` dictionary, and an
optional literal `struct_schema_check_on_init` flag), Python values as
`PyValue`, and a `DStruct` instance as its runtime class plus its attribute
dictionary.  Dictionaries are insertion-ordered association lists, with
assignment overwriting in place, exactly like CPython dicts.

`dedupe_list` and `extract_classes` are translated from `src/utils.py`;
`required_attributes`, `struct_schema_check_on_init`,
`get_extra_allowed_types`, `load_struct_inputs`, `check_struct_schema` and
`DStruct_init` are translated from `src/dstruct.py`.  The overridable
classmethod `get_extra_allowed_types` is passed to the checker as an explicit
function parameter (`extra`), with `get_extra_allowed_types` itself being the
default implementation from the source.
-/

/-- Lookup in an association list with string keys; models Python dictionary
indexing (`d[k]`) returning `none` where Python would raise `KeyError`. -/
def dlookup {α : Type} (k : String) : List (String × α) → Option α
  | [] => none
  | (k1, v) :: rest => if k = k1 then some v else dlookup k rest

/-- Overwrite the value stored at key `k` in place (CPython dict assignment
keeps the original insertion position of an existing key). -/
def overwriteKey {α : Type} (k : String) (v : α) : List (String × α) → List (String × α)
  | [] => []
  | (k1, w) :: rest =>
      if k1 = k then (k, v) :: overwriteKey k v rest
      else (k1, w) :: overwriteKey k v rest

/-- Single dictionary assignment `d[k] = v`: overwrite if the key is present,
append otherwise. -/
def dictSet {α : Type} (d : List (String × α)) (k : String) (v : α) : List (String × α) :=
  if (dlookup k d).isSome then overwriteKey k v d else d ++ [(k, v)]

/-- Models `d.update(u)`: assign every key-value pair of `u` into `d`, in
order. -/
def dictUpdate {α : Type} (d u : List (String × α)) : List (String × α) :=
  u.foldl (fun acc p => dictSet acc p.1 p.2) d

/-- Key set of an association list. -/
def dkeys {α : Type} (d : List (String × α)) : List String :=
  d.map Prod.fst

/-- Worker for `dedupe_list`: keep each element whose value has not been seen
before, threading the `seen` set. -/
def dedupe_go {α : Type} [DecidableEq α] (seen : List α) : List α → List α
  | [] => []
  | x :: xs => if x ∈ seen then dedupe_go seen xs else x :: dedupe_go (x :: seen) xs

/-- Models `utils.dedupe_list` (always called with `preserve_order=True`):
remove duplicates from the list, keeping the first occurrence of each
element. -/
def dedupe_list {α : Type} [DecidableEq α] (l : List α) : List α :=
  dedupe_go [] l

/-- A Python class, as relevant to `dstruct`: either the universal root type
`object`, or a class with a name, a list of base classes, the
`RequiredAttribute` markers declared in its own body (name to optional
required type, in declaration order), an optional literal
`required_attributes` dictionary declared in its body, and an optional
literal `struct_schema_check_on_init` boolean declared in its body. -/
inductive PyClass where
  | obj : PyClass
  | cls (name : String) (bases : List PyClass)
      (markers : List (String × Option PyClass))
      (reqLit : Option (List (String × Option PyClass)))
      (initFlag : Option Bool) : PyClass

mutual

/-- Structural boolean equality on `PyClass` (Python compares classes by
identity; in this model distinct classes are distinct terms). -/
def pcBeq : PyClass → PyClass → Bool
  | .obj, .obj => true
  | .cls n1 b1 m1 r1 f1, .cls n2 b2 m2 r2 f2 =>
      n1 == n2 && pclBeq b1 b2 && pcmlBeq m1 m2 && pcorBeq r1 r2 && f1 == f2
  | _, _ => false
termination_by structural a => a

/-- Boolean equality on lists of classes. -/
def pclBeq : List PyClass → List PyClass → Bool
  | [], [] => true
  | a :: as1, b :: bs1 => pcBeq a b && pclBeq as1 bs1
  | _, _ => false
termination_by structural a => a

/-- Boolean equality on marker dictionaries. -/
def pcmlBeq : List (String × Option PyClass) → List (String × Option PyClass) → Bool
  | [], [] => true
  | (k1, t1) :: xs, (k2, t2) :: ys => k1 == k2 && pcoBeq t1 t2 && pcmlBeq xs ys
  | _, _ => false
termination_by structural a => a

/-- Boolean equality on optional classes. -/
def pcoBeq : Option PyClass → Option PyClass → Bool
  | none, none => true
  | some a, some b => pcBeq a b
  | _, _ => false
termination_by structural a => a

/-- Boolean equality on optional marker dictionaries. -/
def pcorBeq : Option (List (String × Option PyClass)) → Option (List (String × Option PyClass)) → Bool
  | none, none => true
  | some a, some b => pcmlBeq a b
  | _, _ => false
termination_by structural a => a

end

mutual

theorem pcBeq_iff : (a : PyClass) → (b : PyClass) → (pcBeq a b = true ↔ a = b)
  | .obj, .obj => by simp [pcBeq]
  | .obj, .cls _ _ _ _ _ => by simp [pcBeq]
  | .cls _ _ _ _ _, .obj => by simp [pcBeq]
  | .cls n1 b1 m1 r1 f1, .cls n2 b2 m2 r2 f2 => by
      simp [pcBeq, pclBeq_iff b1 b2, pcmlBeq_iff m1 m2, pcorBeq_iff r1 r2,
        Bool.and_eq_true, beq_iff_eq, PyClass.cls.injEq]
      tauto

theorem pclBeq_iff : (a : List PyClass) → (b : List PyClass) → (pclBeq a b = true ↔ a = b)
  | [], [] => by simp [pclBeq]
  | [], _ :: _ => by simp [pclBeq]
  | _ :: _, [] => by simp [pclBeq]
  | a :: as1, b :: bs1 => by
      simp [pclBeq, pcBeq_iff a b, pclBeq_iff as1 bs1, Bool.and_eq_true]

theorem pcmlBeq_iff : (a : List (String × Option PyClass)) → (b : List (String × Option PyClass)) →
    (pcmlBeq a b = true ↔ a = b)
  | [], [] => by simp [pcmlBeq]
  | [], _ :: _ => by simp [pcmlBeq]
  | _ :: _, [] => by simp [pcmlBeq]
  | (k1, t1) :: xs, (k2, t2) :: ys => by
      simp [pcmlBeq, pcoBeq_iff t1 t2, pcmlBeq_iff xs ys, Bool.and_eq_true, beq_iff_eq,
        Prod.ext_iff]

theorem pcoBeq_iff : (a : Option PyClass) → (b : Option PyClass) → (pcoBeq a b = true ↔ a = b)
  | none, none => by simp [pcoBeq]
  | none, some _ => by simp [pcoBeq]
  | some _, none => by simp [pcoBeq]
  | some a, some b => by simp [pcoBeq, pcBeq_iff a b]

theorem pcorBeq_iff : (a : Option (List (String × Option PyClass))) →
    (b : Option (List (String × Option PyClass))) → (pcorBeq a b = true ↔ a = b)
  | none, none => by simp [pcorBeq]
  | none, some _ => by simp [pcorBeq]
  | some _, none => by simp [pcorBeq]
  | some a, some b => by simp [pcorBeq, pcmlBeq_iff a b]

end

instance : DecidableEq PyClass := fun a b => decidable_of_iff (pcBeq a b = true) (pcBeq_iff a b)

/-- Class name (`cls.__name__`). -/
def PyClass.name : PyClass → String
  | .obj => "object"
  | .cls n _ _ _ _ => n

/-- The `RequiredAttribute` markers found in the class body itself
(`clazz.__dict__` entries that are `RequiredAttribute` instances). -/
def PyClass.ownMarkers : PyClass → List (String × Option PyClass)
  | .obj => []
  | .cls _ _ ms _ _ => ms

/-- A literal `required_attributes` dictionary declared in the class body
itself, if any. -/
def PyClass.reqLitOf : PyClass → Option (List (String × Option PyClass))
  | .obj => none
  | .cls _ _ _ rl _ => rl

/-- A literal `struct_schema_check_on_init` boolean declared in the class body
itself, if any. -/
def PyClass.initFlagOf : PyClass → Option Bool
  | .obj => none
  | .cls _ _ _ _ fl => fl

mutual

/-- The full ancestor enumeration underlying `utils.extract_classes`, before
any deduplication or removal of `object`: the class itself followed by a
depth-first walk of its bases in declaration order, repeats included. -/
def raw_ancestors : PyClass → List PyClass
  | .obj => [PyClass.obj]
  | .cls n bs ms rl fl => PyClass.cls n bs ms rl fl :: raw_ancestors_list bs
termination_by structural c => c

/-- Depth-first ancestor enumeration of a list of base classes. -/
def raw_ancestors_list : List PyClass → List PyClass
  | [] => []
  | b :: bs => raw_ancestors b ++ raw_ancestors_list bs
termination_by structural l => l

end

mutual

/-- Models `utils.extract_classes`: start from `[clazz]`, append the
recursive extraction of every base, remove the first occurrence of `object`
if present, then deduplicate preserving order. -/
def extract_classes : PyClass → List PyClass
  | .obj =>
      let extracted := [PyClass.obj]
      dedupe_list (if PyClass.obj ∈ extracted then extracted.erase PyClass.obj else extracted)
  | .cls n bs ms rl fl =>
      let extracted := PyClass.cls n bs ms rl fl :: extract_classes_list bs
      dedupe_list (if PyClass.obj ∈ extracted then extracted.erase PyClass.obj else extracted)
termination_by structural c => c

/-- The `extracted += extract_classes(base)` accumulation loop over a base
list. -/
def extract_classes_list : List PyClass → List PyClass
  | [] => []
  | b :: bs => extract_classes b ++ extract_classes_list bs
termination_by structural l => l

end

mutual

/-- All superclasses of a class, itself included, repeats allowed: the
transitive closure of the base relation.  Membership in this list is Python
`issubclass`, which is what `isinstance` consults. -/
def superClosure : PyClass → List PyClass
  | .obj => [PyClass.obj]
  | .cls n bs ms rl fl => PyClass.cls n bs ms rl fl :: superClosure_list bs
termination_by structural c => c

/-- Superclass closure of a list of base classes. -/
def superClosure_list : List PyClass → List PyClass
  | [] => []
  | b :: bs => superClosure b ++ superClosure_list bs
termination_by structural l => l

end

/-- A Python runtime value, as relevant to schema validation: only its runtime
class matters to `isinstance`, the payload is carried for identity.  `vFloat`
carries an opaque payload because no claim computes with float values, only
with their runtime type. -/
inductive PyValue where
  | vInt (n : Int)
  | vFloat (payload : Int)
  | vBool (b : Bool)
  | vStr (s : String)
  | vUnicode (s : String)
  | vNone
  | vObj (c : PyClass) (tag : Nat)
deriving DecidableEq

/-- The built-in `int` type. -/
def intC : PyClass := PyClass.cls "int" [PyClass.obj] [] none none

/-- The built-in `float` type. -/
def floatC : PyClass := PyClass.cls "float" [PyClass.obj] [] none none

/-- The built-in `bool` type (a subclass of `int` in Python). -/
def boolC : PyClass := PyClass.cls "bool" [intC] [] none none

/-- The built-in byte-string type `str` (Python 2). -/
def strC : PyClass := PyClass.cls "str" [PyClass.obj] [] none none

/-- The built-in text-string type `unicode` (Python 2). -/
def unicodeC : PyClass := PyClass.cls "unicode" [PyClass.obj] [] none none

/-- The type of `None`. -/
def noneTypeC : PyClass := PyClass.cls "NoneType" [PyClass.obj] [] none none

/-- The `DStruct` base class itself: no markers, no literal dictionary (its
`required_attributes` entry is the classproperty descriptor), and its
`struct_schema_check_on_init` classproperty returns `True`. -/
def DStructC : PyClass := PyClass.cls "DStruct" [PyClass.obj] [] none none

/-- Runtime class of a value (`type(v)`). -/
def typeOf : PyValue → PyClass
  | .vInt _ => intC
  | .vFloat _ => floatC
  | .vBool _ => boolC
  | .vStr _ => strC
  | .vUnicode _ => unicodeC
  | .vNone => noneTypeC
  | .vObj c _ => c

/-- Models Python `isinstance(v, t)`: the runtime class of `v` is `t` or a
subclass of `t`. -/
def isinstance (v : PyValue) (t : PyClass) : Bool :=
  decide (t ∈ superClosure (typeOf v))

/-- Models `DStruct.get_extra_allowed_types` (the default implementation):
`str` and `unicode` are mutually interchangeable, every other type gets no
extra allowed types.  Subclass overrides of this classmethod are modelled by
passing a different function as the `extra` parameter of the checker. -/
def get_extra_allowed_types (t : PyClass) : List PyClass :=
  if t = strC then [unicodeC]
  else if t = unicodeC then [strC]
  else []

/-- A `DStruct` instance: its runtime class and its attribute dictionary
(`self.__dict__`). -/
structure DSInstance where
  cls : PyClass
  dict : List (String × PyValue)
deriving DecidableEq

/-- Attribute lookup order for a class: the class first, then its ancestors as
enumerated by `extract_classes`, then `object`. -/
def lookupOrder (c : PyClass) : List PyClass :=
  extract_classes c ++ [PyClass.obj]

/-- The body of the `DStruct.required_attributes` classproperty: walk
`extract_classes cls` and record every marker, later classes overwriting
earlier entries for the same name (Python dict assignment). -/
def collectMarkers (c : PyClass) : List (String × Option PyClass) :=
  (extract_classes c).foldl (fun acc cl => dictUpdate acc cl.ownMarkers) []

/-- Search the attribute lookup order for a literal `required_attributes`
dictionary; the search stops at `DStruct` itself, whose own entry is the
classproperty descriptor. -/
def findReqLit : List PyClass → Option (List (String × Option PyClass))
  | [] => none
  | cl :: rest =>
      if cl = DStructC then none
      else
        match cl.reqLitOf with
        | some d => some d
        | none => findReqLit rest

/-- Models the attribute access `clazz.required_attributes`: a literal
dictionary declared on the class (or inherited from an ancestor closer than
`DStruct` in lookup order) shadows the classproperty; otherwise the
classproperty computes the marker collection for the accessed class. -/
def required_attributes (c : PyClass) : List (String × Option PyClass) :=
  match findReqLit (lookupOrder c) with
  | some d => d
  | none => collectMarkers c

/-- Search the attribute lookup order for a literal
`struct_schema_check_on_init` boolean; the search stops at `DStruct`, whose
classproperty returns `True`. -/
def findInitFlag : List PyClass → Option Bool
  | [] => none
  | cl :: rest =>
      if cl = DStructC then some true
      else
        match cl.initFlagOf with
        | some b => some b
        | none => findInitFlag rest

/-- Models the attribute access `cls.struct_schema_check_on_init`. -/
def struct_schema_check_on_init (c : PyClass) : Bool :=
  (findInitFlag (lookupOrder c)).getD true

/-- The observable failure outcomes of schema checking.
`RequiredAttributeMissing` carries the instance class name and the missing
key (the data interpolated into its message); `RequiredAttributeInvalid`
carries the key, the expected type read from the instance class schema, the
offending value and its runtime type; `KeyError` is the dictionary lookup
failure that escapes while the `RequiredAttributeInvalid` message itself is
being built. -/
inductive PyErr where
  | RequiredAttributeMissing (clsName : String) (key : String)
  | RequiredAttributeInvalid (key : String) (expected : Option PyClass)
      (value : PyValue) (valueType : PyClass)
  | KeyError (key : String)
deriving DecidableEq

/-- Models constructing `DStruct.RequiredAttributeInvalid(self, key, value)`:
the message reads
`struct_instance.__class__.required_attributes[key]`, i.e. the schema of the
instance's own runtime class, so the construction itself raises `KeyError`
when that schema has no entry for `key`. -/
def mkInvalid (inst : DSInstance) (key : String) (v : PyValue) : PyErr :=
  match dlookup key (required_attributes inst.cls) with
  | some expected => PyErr.RequiredAttributeInvalid key expected v (typeOf v)
  | none => PyErr.KeyError key

/-- The `for key, required_type in clazz.required_attributes.items()` loop of
`DStruct.check_struct_schema`: raise `RequiredAttributeMissing` if the key is
absent from the instance dictionary; otherwise, if a required type is given
and the value is an instance of neither the required type nor one of the
extra allowed types, raise `RequiredAttributeInvalid`. -/
def checkLoop (extra : PyClass → List PyClass) (inst : DSInstance) :
    List (String × Option PyClass) → Except PyErr Unit
  | [] => Except.ok ()
  | (key, requiredType) :: rest =>
      match dlookup key inst.dict with
      | none => Except.error (PyErr.RequiredAttributeMissing inst.cls.name key)
      | some v =>
          match requiredType with
          | none => checkLoop extra inst rest
          | some rt =>
              if (rt :: extra rt).any (fun t => isinstance v t) then
                checkLoop extra inst rest
              else
                Except.error (mkInvalid inst key v)

/-- Models `DStruct.check_struct_schema(self, clazz=None)`: default the class
to the instance's runtime class, then confirm every required attribute if
there are any. -/
def check_struct_schema (extra : PyClass → List PyClass) (inst : DSInstance)
    (clazzArg : Option PyClass) : Except PyErr Unit :=
  let clazz := match clazzArg with
    | none => inst.cls
    | some c => c
  if (required_attributes clazz).length > 0 then
    checkLoop extra inst (required_attributes clazz)
  else
    Except.ok ()

/-- Models `DStruct.load_struct_inputs(self, input_dict, **entries)` on a
fresh instance (whose `__dict__` starts empty): a falsy `input_dict` is
replaced by the empty dictionary, then the dictionary and the keyword
entries are merged on, in that order. -/
def load_struct_inputs (input_dict : Option (List (String × PyValue)))
    (entries : List (String × PyValue)) : List (String × PyValue) :=
  dictUpdate (dictUpdate [] (input_dict.getD [])) entries

/-- The instance state right after steps 1 and 2 of `DStruct.__init__`: inputs
loaded, then `self._struct_has_loaded = True` assigned into the instance
dictionary. -/
def loadedInstance (c : PyClass) (input_dict : Option (List (String × PyValue)))
    (entries : List (String × PyValue)) : DSInstance :=
  { cls := c
    dict := dictSet (load_struct_inputs input_dict entries) "_struct_has_loaded"
      (PyValue.vBool true) }

/-- Models `DStruct.__init__`: load the inputs, set the loaded marker, and, if
the class's `struct_schema_check_on_init` is true, end with
`self.check_struct_schema()`; a raised exception propagates and no instance
is returned. -/
def DStruct_init (extra : PyClass → List PyClass) (c : PyClass)
    (input_dict : Option (List (String × PyValue)))
    (entries : List (String × PyValue)) : Except PyErr DSInstance :=
  let inst := loadedInstance c input_dict entries
  if struct_schema_check_on_init c then
    (check_struct_schema extra inst none).map (fun _ => inst)
  else
    Except.ok inst

/-- Specification-side predicate, following the contract wording of the spec:
a single `(name, expected_type)` requirement is satisfied by an instance
dictionary when a field with that name exists and, if an expected type is
declared, the field value is an instance of the expected type or of one of
its extra allowed types; when no expected type is declared, presence alone
suffices. -/
def satisfiesReq (extra : PyClass → List PyClass) (d : List (String × PyValue))
    (r : String × Option PyClass) : Bool :=
  match dlookup r.1 d with
  | none => false
  | some v =>
      match r.2 with
      | none => true
      | some rt => (rt :: extra rt).any (fun t => isinstance v t)

/-- The exception the checker produces for an unmet requirement: the missing
error if the field is absent, otherwise the invalid error (whose construction
may itself degenerate to `KeyError`, see `mkInvalid`). -/
def errFor (inst : DSInstance) (r : String × Option PyClass) : PyErr :=
  match dlookup r.1 inst.dict with
  | none => PyErr.RequiredAttributeMissing inst.cls.name r.1
  | some v => mkInvalid inst r.1 v

/-- Projection used to compare construction outcomes across two classes with
identical schemas: the error, or the attribute dictionary of the constructed
instance. -/
def resultDict (r : Except PyErr DSInstance) : Except PyErr (List (String × PyValue)) :=
  r.map DSInstance.dict


/-! Concrete classes mirroring the repository's documentation and test
suite, used to instantiate the general theorems. -/

/-- The `CartesianCoordinate` example: two untyped required attributes. -/
def CartesianC : PyClass :=
  PyClass.cls "CartesianCoordinate" [DStructC] [("x", none), ("y", none)] none none

/-- The `BaseLabel` helper class from the tests. -/
def BaseLabelC : PyClass := PyClass.cls "BaseLabel" [PyClass.obj] [] none none

/-- The `Label` helper class, a subclass of `BaseLabel`. -/
def LabelC : PyClass := PyClass.cls "Label" [BaseLabelC] [] none none

/-- The `MapLocation` example: typed required attributes, `label` typed by a
user class with a subclass. -/
def MapLocationC : PyClass :=
  PyClass.cls "MapLocation" [DStructC]
    [("latitude", some floatC), ("longitude", some floatC), ("label", some BaseLabelC)]
    none none

/-- A parent container declaring required attribute `a` with type `int`. -/
def ParentC : PyClass := PyClass.cls "Parent" [DStructC] [("a", some intC)] none none

/-- A child of `ParentC` redeclaring `a` with type `str`: used to settle which
declaration wins when the same name appears at two levels. -/
def ChildC : PyClass := PyClass.cls "Child" [ParentC] [("a", some strC)] none none

/-- The `SlowInt` example authored with a declarative marker. -/
def SlowIntMarkC : PyClass :=
  PyClass.cls "SlowInt" [DStructC] [("value", some intC)] none none

/-- The `SlowInt` example authored with a literal `required_attributes`
dictionary instead of a marker (the equivalence claimed by the spec). -/
def SlowIntLitC : PyClass :=
  PyClass.cls "SlowInt" [DStructC] [] (some [("value", some intC)]) none

/-- A subclass of the marker-authored `SlowInt` adding one more untyped
required attribute. -/
def SubMarkC : PyClass := PyClass.cls "Sub" [SlowIntMarkC] [("w", none)] none none

/-- A subclass of the literal-dictionary-authored `SlowInt` adding the same
extra marker. -/
def SubLitC : PyClass := PyClass.cls "Sub" [SlowIntLitC] [("w", none)] none none

/-- The `Product` example: `struct_schema_check_on_init = False` with a typed
required attribute, for deferred validation. -/
def ProductC : PyClass :=
  PyClass.cls "Product" [DStructC] [("name", some strC)] none (some false)

/-- A container requiring `a : int`, used to check against an explicitly
passed class. -/
def IntReqC : PyClass := PyClass.cls "IntReq" [DStructC] [("a", some intC)] none none

/-! Association-list dictionary lemmas. -/

theorem dlookup_append {α : Type} (k : String) (xs ys : List (String × α)) :
    dlookup k (xs ++ ys) =
      match dlookup k xs with
      | some v => some v
      | none => dlookup k ys := by
  induction xs with
  | nil => simp [dlookup]
  | cons p t ih =>
      obtain ⟨a, b⟩ := p
      by_cases h : k = a
      · simp [dlookup, h]
      · simp [dlookup, h, ih]

theorem dlookup_isSome_iff {α : Type} (k : String) (d : List (String × α)) :
    (dlookup k d).isSome = true ↔ k ∈ dkeys d := by
  induction d with
  | nil => simp [dlookup, dkeys]
  | cons p t ih =>
      obtain ⟨a, b⟩ := p
      by_cases h : k = a
      · simp [dlookup, dkeys, h]
      · simp [dlookup, dkeys, h, ih]

theorem dlookup_overwriteKey_self {α : Type} (k : String) (v : α) (d : List (String × α))
    (h : (dlookup k d).isSome = true) : dlookup k (overwriteKey k v d) = some v := by
  induction d with
  | nil => simp [dlookup] at h
  | cons p t ih =>
      obtain ⟨a, b⟩ := p
      by_cases hk : k = a
      · subst hk
        simp only [overwriteKey, if_pos rfl, dlookup]
        simp
      · have ha : ¬ a = k := fun hh => hk hh.symm
        simp only [dlookup, if_neg hk] at h
        simp only [overwriteKey, if_neg ha, dlookup, if_neg hk]
        exact ih h

theorem dlookup_overwriteKey_other {α : Type} (k k1 : String) (v : α) (d : List (String × α))
    (h : k1 ≠ k) : dlookup k1 (overwriteKey k v d) = dlookup k1 d := by
  induction d with
  | nil => simp [overwriteKey, dlookup]
  | cons p t ih =>
      obtain ⟨a, b⟩ := p
      by_cases ha : a = k
      · subst ha
        have h1 : ¬ k1 = a := h
        simp only [overwriteKey, if_pos rfl, dlookup, if_neg h, if_neg h1]
        exact ih
      · simp only [overwriteKey, if_neg ha, dlookup]
        by_cases h1 : k1 = a
        · simp [if_pos h1]
        · simp only [if_neg h1]
          exact ih

theorem dictSet_dlookup {α : Type} (d : List (String × α)) (k k1 : String) (v : α) :
    dlookup k1 (dictSet d k v) = if k1 = k then some v else dlookup k1 d := by
  unfold dictSet
  by_cases hs : (dlookup k d).isSome = true
  · rw [if_pos hs]
    by_cases h1 : k1 = k
    · rw [if_pos h1, h1]
      exact dlookup_overwriteKey_self k v d hs
    · rw [if_neg h1]
      exact dlookup_overwriteKey_other k k1 v d h1
  · rw [if_neg hs]
    rw [dlookup_append]
    by_cases h1 : k1 = k
    · subst h1
      have hnone : dlookup k1 d = none := by
        cases hd : dlookup k1 d with
        | none => rfl
        | some w => exact absurd (by simp [hd]) hs
      simp [hnone, dlookup]
    · cases hd : dlookup k1 d with
      | none => simp [hd, dlookup, h1]
      | some w => simp [hd, h1]

theorem dictUpdate_append {α : Type} (d u w : List (String × α)) :
    dictUpdate d (u ++ w) = dictUpdate (dictUpdate d u) w := by
  simp [dictUpdate, List.foldl_append]

theorem dictUpdate_dlookup {α : Type} (u : List (String × α)) (d : List (String × α))
    (k : String) :
    dlookup k (dictUpdate d u) =
      match dlookup k u.reverse with
      | some v => some v
      | none => dlookup k d := by
  induction u using List.reverseRecOn generalizing d with
  | nil => simp [dictUpdate, dlookup]
  | append_singleton t p ih =>
      obtain ⟨a, b⟩ := p
      rw [dictUpdate_append]
      have step : dictUpdate (dictUpdate d t) [(a, b)] = dictSet (dictUpdate d t) a b := rfl
      rw [step, dictSet_dlookup]
      by_cases h : k = a
      · simp [h, dlookup]
      · simp [h, dlookup, ih d]

theorem dkeys_not_mem_head {α : Type} (a : String) (b : α) (t : List (String × α))
    (h : (dkeys ((a, b) :: t)).Nodup) : a ∉ dkeys t := by
  simp only [dkeys, List.map_cons, List.nodup_cons] at h
  exact h.1

theorem dkeys_nodup_tail {α : Type} (a : String) (b : α) (t : List (String × α))
    (h : (dkeys ((a, b) :: t)).Nodup) : (dkeys t).Nodup := by
  simp only [dkeys, List.map_cons, List.nodup_cons] at h
  exact h.2

theorem dlookup_reverse_of_nodup {α : Type} (u : List (String × α))
    (h : (dkeys u).Nodup) (k : String) : dlookup k u.reverse = dlookup k u := by
  induction u with
  | nil => rfl
  | cons p t ih =>
      obtain ⟨a, b⟩ := p
      rw [List.reverse_cons, dlookup_append]
      by_cases hk : k = a
      · subst hk
        have hnone : dlookup k t = none := by
          cases hd : dlookup k t with
          | none => rfl
          | some w =>
              have hmem : k ∈ dkeys t := (dlookup_isSome_iff k t).mp (by simp [hd])
              exact absurd hmem (dkeys_not_mem_head k b t h)
        have hrev : dlookup k t.reverse = none := by
          cases hd : dlookup k t.reverse with
          | none => rfl
          | some w =>
              have hmem : k ∈ dkeys t.reverse := (dlookup_isSome_iff k t.reverse).mp (by simp [hd])
              have hmem2 : k ∈ dkeys t := by
                simp only [dkeys, List.map_reverse, List.mem_reverse] at hmem
                simpa [dkeys] using hmem
              exact absurd hmem2 (dkeys_not_mem_head k b t h)
        simp [hrev, dlookup, hnone]
      · rw [ih (dkeys_nodup_tail a b t h)]
        cases hd : dlookup k t with
        | none => simp [hd, dlookup, hk]
        | some w => simp [hd, dlookup, hk]

/-! Deduplication lemmas. -/

theorem dedupe_go_mem {α : Type} [DecidableEq α] (seen : List α) (l : List α) (a : α) :
    a ∈ dedupe_go seen l ↔ a ∈ l ∧ a ∉ seen := by
  induction l generalizing seen with
  | nil => simp [dedupe_go]
  | cons x xs ih =>
      by_cases hx : x ∈ seen
      · rw [dedupe_go, if_pos hx, ih]
        constructor
        · rintro ⟨h1, h2⟩
          exact ⟨List.mem_cons_of_mem x h1, h2⟩
        · rintro ⟨h1, h2⟩
          rcases List.mem_cons.mp h1 with h | h
          · exact absurd (h ▸ hx) h2
          · exact ⟨h, h2⟩
      · rw [dedupe_go, if_neg hx]
        rw [List.mem_cons, ih]
        constructor
        · rintro (h | ⟨h1, h2⟩)
          · subst h
            exact ⟨List.mem_cons_self a xs, hx⟩
          · constructor
            · exact List.mem_cons_of_mem x h1
            · intro hh
              exact h2 (List.mem_cons_of_mem x hh)
        · rintro ⟨h1, h2⟩
          by_cases hax : a = x
          · exact Or.inl hax
          · rcases List.mem_cons.mp h1 with h | h
            · exact absurd h hax
            · refine Or.inr ⟨h, fun hh => ?_⟩
              rcases List.mem_cons.mp hh with hh1 | hh1
              · exact hax hh1
              · exact h2 hh1

theorem dedupe_go_congr {α : Type} [DecidableEq α] (s t : List α) (l : List α)
    (h : ∀ a, a ∈ s ↔ a ∈ t) : dedupe_go s l = dedupe_go t l := by
  induction l generalizing s t with
  | nil => rfl
  | cons x xs ih =>
      by_cases hx : x ∈ s
      · rw [dedupe_go, dedupe_go, if_pos hx, if_pos ((h x).mp hx)]
        exact ih s t h
      · rw [dedupe_go, dedupe_go, if_neg hx, if_neg (fun hh => hx ((h x).mpr hh))]
        refine congrArg (List.cons x) (ih (x :: s) (x :: t) ?_)
        intro a
        simp only [List.mem_cons, h a]

theorem dedupe_go_append {α : Type} [DecidableEq α] (s : List α) (xs ys : List α) :
    dedupe_go s (xs ++ ys) = dedupe_go s xs ++ dedupe_go (xs ++ s) ys := by
  induction xs generalizing s with
  | nil => simp [dedupe_go]
  | cons x xs ih =>
      by_cases hx : x ∈ s
      · rw [List.cons_append, dedupe_go, if_pos hx, dedupe_go, if_pos hx, ih s]
        refine congrArg _ (dedupe_go_congr _ _ _ ?_)
        intro a
        simp only [List.cons_append, List.mem_append, List.mem_cons]
        constructor
        · tauto
        · rintro (h | h | h)
          · subst h
            exact Or.inr hx
          · exact Or.inl h
          · exact Or.inr h
      · rw [List.cons_append, dedupe_go, if_neg hx, dedupe_go, if_neg hx, ih (x :: s),
          List.cons_append]
        refine congrArg _ (congrArg _ (dedupe_go_congr _ _ _ ?_))
        intro a
        simp only [List.mem_append, List.mem_cons]
        tauto

theorem dedupe_go_inner {α : Type} [DecidableEq α] (s t : List α) (ys : List α)
    (h : ∀ a ∈ t, a ∈ s) : dedupe_go s (dedupe_go t ys) = dedupe_go s ys := by
  induction ys generalizing s t with
  | nil => rfl
  | cons y ys ih =>
      by_cases hy : y ∈ t
      · rw [dedupe_go, if_pos hy, ih s t h, dedupe_go, if_pos (h y hy)]
      · rw [dedupe_go, if_neg hy]
        by_cases hys : y ∈ s
        · rw [dedupe_go, if_pos hys, dedupe_go, if_pos hys]
          refine ih s (y :: t) ?_
          intro a ha
          rcases List.mem_cons.mp ha with ha | ha
          · exact ha ▸ hys
          · exact h a ha
        · rw [dedupe_go, if_neg hys, dedupe_go, if_neg hys]
          refine congrArg _ (ih (y :: s) (y :: t) ?_)
          intro a ha
          rcases List.mem_cons.mp ha with ha | ha
          · exact ha ▸ List.mem_cons_self y s
          · exact List.mem_cons_of_mem y (h a ha)

theorem dedupe_go_absorb {α : Type} [DecidableEq α] (s : List α) (ys zs : List α) :
    dedupe_go s (dedupe_list ys ++ zs) = dedupe_go s (ys ++ zs) := by
  rw [dedupe_go_append, dedupe_go_append, dedupe_list]
  rw [dedupe_go_inner s [] ys (by simp)]
  refine congrArg _ (dedupe_go_congr _ _ _ ?_)
  intro a
  simp only [List.mem_append, dedupe_go_mem, List.not_mem_nil, not_false_iff, and_true]

theorem dedupe_go_nodup {α : Type} [DecidableEq α] (s : List α) (l : List α) :
    (dedupe_go s l).Nodup := by
  induction l generalizing s with
  | nil => exact List.nodup_nil
  | cons x xs ih =>
      by_cases hx : x ∈ s
      · rw [dedupe_go, if_pos hx]
        exact ih s
      · rw [dedupe_go, if_neg hx]
        refine List.nodup_cons.mpr ⟨?_, ih (x :: s)⟩
        intro hmem
        exact ((dedupe_go_mem (x :: s) xs x).mp hmem).2 (List.mem_cons_self x s)

/-! Characterization of `extract_classes`: it is exactly the raw depth-first
ancestor enumeration with `object` removed, deduplicated keeping first
occurrences. -/

theorem cls_ne_obj (n : String) (bs : List PyClass) (ms : List (String × Option PyClass))
    (rl : Option (List (String × Option PyClass))) (fl : Option Bool) :
    PyClass.cls n bs ms rl fl ≠ PyClass.obj := by
  simp

mutual

theorem extract_classes_eq : (c : PyClass) →
    extract_classes c =
      dedupe_list ((raw_ancestors c).filter (fun x => decide (x ≠ PyClass.obj)))
  | .obj => by
      rfl
  | .cls n bs ms rl fl => by
      have hobjbs : PyClass.obj ∉ extract_classes_list bs := by
        intro hmem
        have h1 : PyClass.obj ∈ dedupe_go [] (extract_classes_list bs) :=
          (dedupe_go_mem [] (extract_classes_list bs) PyClass.obj).mpr
            ⟨hmem, List.not_mem_nil _⟩
        rw [extract_classes_list_go bs []] at h1
        have h2 := (dedupe_go_mem _ _ _).mp h1
        have h3 := List.mem_filter.mp h2.1
        simp at h3
      have hobj : PyClass.obj ∉
          PyClass.cls n bs ms rl fl :: extract_classes_list bs := by
        intro hmem
        rcases List.mem_cons.mp hmem with h | h
        · exact cls_ne_obj n bs ms rl fl h.symm
        · exact hobjbs h
      rw [extract_classes]
      rw [if_neg hobj]
      rw [raw_ancestors]
      rw [List.filter_cons_of_pos (by simp)]
      rw [dedupe_list, dedupe_list, dedupe_go, dedupe_go,
        if_neg (List.not_mem_nil _), if_neg (List.not_mem_nil _)]
      exact congrArg _ (extract_classes_list_go bs _)

theorem extract_classes_list_go : (l : List PyClass) → (s : List PyClass) →
    dedupe_go s (extract_classes_list l) =
      dedupe_go s ((raw_ancestors_list l).filter (fun x => decide (x ≠ PyClass.obj)))
  | [], s => by rfl
  | b :: bs, s => by
      rw [extract_classes_list, raw_ancestors_list, List.filter_append]
      rw [extract_classes_eq b]
      rw [dedupe_go_absorb]
      rw [dedupe_go_append, dedupe_go_append]
      exact congrArg _ (extract_classes_list_go bs _)

end

theorem extract_classes_nodup (c : PyClass) : (extract_classes c).Nodup := by
  rw [extract_classes_eq]
  exact dedupe_go_nodup _ _

theorem obj_not_mem_extract_classes (c : PyClass) : PyClass.obj ∉ extract_classes c := by
  rw [extract_classes_eq]
  intro h
  have h1 := (dedupe_go_mem _ _ _).mp h
  have h2 := List.mem_filter.mp h1.1
  simp at h2

theorem mem_extract_classes_iff (c x : PyClass) :
    x ∈ extract_classes c ↔ x ∈ raw_ancestors c ∧ x ≠ PyClass.obj := by
  rw [extract_classes_eq, dedupe_list, dedupe_go_mem]
  simp [List.mem_filter]

/-! Lemmas about the marker collection performed by the
`required_attributes` classproperty. -/

theorem foldl_dictUpdate_eq (cs : List PyClass) (d : List (String × Option PyClass)) :
    cs.foldl (fun acc cl => dictUpdate acc cl.ownMarkers) d =
      dictUpdate d ((cs.map PyClass.ownMarkers).flatten) := by
  induction cs generalizing d with
  | nil => rfl
  | cons cl cs ih =>
      rw [List.foldl_cons, ih, List.map_cons, List.flatten_cons, dictUpdate_append]

theorem collectMarkers_eq (c : PyClass) :
    collectMarkers c = dictUpdate [] (((extract_classes c).map PyClass.ownMarkers).flatten) :=
  foldl_dictUpdate_eq (extract_classes c) []

theorem collectMarkers_dlookup (c : PyClass) (k : String) :
    dlookup k (collectMarkers c) =
      dlookup k (((extract_classes c).map PyClass.ownMarkers).flatten).reverse := by
  rw [collectMarkers_eq, dictUpdate_dlookup]
  cases h : dlookup k (((extract_classes c).map PyClass.ownMarkers).flatten).reverse with
  | none => simp [dlookup]
  | some w => simp

theorem collectMarkers_isSome_iff (c : PyClass) (k : String) :
    (dlookup k (collectMarkers c)).isSome = true ↔
      ∃ cl ∈ extract_classes c, (dlookup k cl.ownMarkers).isSome = true := by
  rw [collectMarkers_dlookup, dlookup_isSome_iff]
  have hkeys : dkeys ((((extract_classes c).map PyClass.ownMarkers).flatten).reverse) =
      (dkeys (((extract_classes c).map PyClass.ownMarkers).flatten)).reverse := by
    simp [dkeys, List.map_reverse]
  rw [hkeys, List.mem_reverse]
  constructor
  · intro h
    simp only [dkeys, List.map_flatten, List.mem_flatten, List.mem_map] at h
    obtain ⟨ks, ⟨ms, ⟨cl, hcl, hms⟩, hks⟩, hk⟩ := h
    refine ⟨cl, hcl, ?_⟩
    rw [dlookup_isSome_iff]
    subst hms
    subst hks
    simpa [dkeys] using hk
  · rintro ⟨cl, hcl, hsome⟩
    rw [dlookup_isSome_iff] at hsome
    simp only [dkeys, List.map_flatten, List.mem_flatten, List.mem_map]
    refine ⟨(cl.ownMarkers).map Prod.fst, ⟨cl.ownMarkers, ⟨cl, hcl, rfl⟩, rfl⟩, ?_⟩
    simpa [dkeys] using hsome

theorem collectMarkers_of_no_markers (c : PyClass)
    (h : ∀ cl ∈ extract_classes c, cl.ownMarkers = []) : collectMarkers c = [] := by
  rw [collectMarkers_eq]
  have hflat : ((extract_classes c).map PyClass.ownMarkers).flatten = [] := by
    have hmap : (extract_classes c).map PyClass.ownMarkers =
        (extract_classes c).map (fun _ => ([] : List (String × Option PyClass))) :=
      List.map_congr_left h
    rw [hmap]
    induction extract_classes c with
    | nil => rfl
    | cons x xs ih =>
        rw [List.map_cons, List.flatten_cons, List.nil_append]
        exact ih
  rw [hflat]
  rfl

/-! Characterization of the validation loop. -/

theorem find?_first_of_prefix {β : Type} (p : β → Bool) (pre : List β) (r : β) (post : List β)
    (h1 : ∀ x ∈ pre, p x = false) (h2 : p r = true) :
    (pre ++ r :: post).find? p = some r := by
  induction pre with
  | nil => simp [List.find?_cons_of_pos, h2]
  | cons x xs ih =>
      rw [List.cons_append, List.find?_cons_of_neg]
      · exact ih (fun y hy => h1 y (List.mem_cons_of_mem x hy))
      · simp [h1 x (List.mem_cons_self x xs)]

theorem checkLoop_eq (extra : PyClass → List PyClass) (inst : DSInstance)
    (l : List (String × Option PyClass)) :
    checkLoop extra inst l =
      match l.find? (fun r => ! satisfiesReq extra inst.dict r) with
      | none => Except.ok ()
      | some r => Except.error (errFor inst r) := by
  induction l with
  | nil => rfl
  | cons hd rest ih =>
      obtain ⟨key, rt⟩ := hd
      cases hdl : dlookup key inst.dict with
      | none =>
          have hsat : satisfiesReq extra inst.dict (key, rt) = false := by
            simp [satisfiesReq, hdl]
          rw [List.find?_cons_of_pos _ (by simp [hsat])]
          simp only [checkLoop, hdl, errFor]
      | some v =>
          cases rt with
          | none =>
              have hsat : satisfiesReq extra inst.dict (key, none) = true := by
                simp [satisfiesReq, hdl]
              rw [List.find?_cons_of_neg _ (by simp [hsat])]
              simpa only [checkLoop, hdl] using ih
          | some rtc =>
              cases hacc : (rtc :: extra rtc).any (fun t => isinstance v t) with
              | true =>
                  have hsat : satisfiesReq extra inst.dict (key, some rtc) = true := by
                    simp only [satisfiesReq, hdl]
                    exact hacc
                  rw [List.find?_cons_of_neg _ (by simp [hsat])]
                  simp only [checkLoop, hdl, hacc, if_true]
                  exact ih
              | false =>
                  have hsat : satisfiesReq extra inst.dict (key, some rtc) = false := by
                    simp only [satisfiesReq, hdl]
                    exact hacc
                  rw [List.find?_cons_of_pos _ (by simp [hsat])]
                  simp only [checkLoop, hdl, hacc, Bool.false_eq_true, if_false, errFor]

theorem check_none_eq_some_self (extra : PyClass → List PyClass) (inst : DSInstance) :
    check_struct_schema extra inst none = check_struct_schema extra inst (some inst.cls) := rfl

theorem check_struct_schema_eq (extra : PyClass → List PyClass) (inst : DSInstance)
    (clazz : PyClass) :
    check_struct_schema extra inst (some clazz) =
      match (required_attributes clazz).find? (fun r => ! satisfiesReq extra inst.dict r) with
      | none => Except.ok ()
      | some r => Except.error (errFor inst r) := by
  rw [check_struct_schema]
  cases hra : required_attributes clazz with
  | nil => simp
  | cons hd tl =>
      have hlen : (hd :: tl).length > 0 := by simp
      rw [if_pos hlen]
      exact checkLoop_eq extra inst (hd :: tl)

/-! Congruence: validation behavior depends on the class only through its
name and its discovered schema. -/

theorem mkInvalid_congr (i1 i2 : DSInstance) (key : String) (v : PyValue)
    (h2 : required_attributes i1.cls = required_attributes i2.cls) :
    mkInvalid i1 key v = mkInvalid i2 key v := by
  rw [mkInvalid, mkInvalid, h2]

theorem errFor_congr (i1 i2 : DSInstance) (r : String × Option PyClass)
    (h1 : i1.cls.name = i2.cls.name)
    (h2 : required_attributes i1.cls = required_attributes i2.cls)
    (h3 : i1.dict = i2.dict) :
    errFor i1 r = errFor i2 r := by
  rw [errFor, errFor, h3]
  cases dlookup r.1 i2.dict with
  | none => rw [h1]
  | some v => exact mkInvalid_congr i1 i2 r.1 v h2

theorem check_struct_schema_cls_congr (extra : PyClass → List PyClass) (c1 c2 : PyClass)
    (d : List (String × PyValue))
    (h1 : c1.name = c2.name) (h2 : required_attributes c1 = required_attributes c2) :
    check_struct_schema extra ⟨c1, d⟩ none = check_struct_schema extra ⟨c2, d⟩ none := by
  rw [check_none_eq_some_self, check_none_eq_some_self]
  rw [check_struct_schema_eq, check_struct_schema_eq]
  have hcls1 : (⟨c1, d⟩ : DSInstance).cls = c1 := rfl
  have hcls2 : (⟨c2, d⟩ : DSInstance).cls = c2 := rfl
  rw [hcls1, hcls2, h2]
  cases hf : (required_attributes c2).find? (fun r => ! satisfiesReq extra d r) with
  | none => rfl
  | some r =>
      simp only []
      exact congrArg Except.error (errFor_congr ⟨c1, d⟩ ⟨c2, d⟩ r h1 h2 rfl)

/-! Lemmas about the loaded instance and the construction-time flag. -/

theorem loadedInstance_marker (c : PyClass) (input_dict : Option (List (String × PyValue)))
    (entries : List (String × PyValue)) :
    dlookup "_struct_has_loaded" (loadedInstance c input_dict entries).dict =
      some (PyValue.vBool true) := by
  rw [loadedInstance]
  rw [dictSet_dlookup]
  simp

theorem loadedInstance_dlookup_other (c : PyClass)
    (input_dict : Option (List (String × PyValue))) (entries : List (String × PyValue))
    (k : String) (h : k ≠ "_struct_has_loaded") :
    dlookup k (loadedInstance c input_dict entries).dict =
      dlookup k (load_struct_inputs input_dict entries) := by
  rw [loadedInstance]
  rw [dictSet_dlookup]
  simp [h]

theorem findInitFlag_of_no_lit (l : List PyClass) (h : ∀ cl ∈ l, cl.initFlagOf = none) :
    findInitFlag l = none ∨ findInitFlag l = some true := by
  induction l with
  | nil => exact Or.inl rfl
  | cons cl rest ih =>
      by_cases hc : cl = DStructC
      · rw [findInitFlag, if_pos hc]
        exact Or.inr rfl
      · rw [findInitFlag, if_neg hc, h cl (List.mem_cons_self cl rest)]
        exact ih (fun x hx => h x (List.mem_cons_of_mem cl hx))

theorem struct_schema_check_on_init_default (c : PyClass)
    (h : ∀ cl ∈ lookupOrder c, cl.initFlagOf = none) :
    struct_schema_check_on_init c = true := by
  rw [struct_schema_check_on_init]
  rcases findInitFlag_of_no_lit (lookupOrder c) h with hf | hf
  · rw [hf]
    rfl
  · rw [hf]
    rfl

theorem load_struct_inputs_dlookup (input_dict : List (String × PyValue))
    (entries : List (String × PyValue)) (k : String)
    (hM : (dkeys input_dict).Nodup) (hK : (dkeys entries).Nodup) :
    dlookup k (load_struct_inputs (some input_dict) entries) =
      match dlookup k entries with
      | some v => some v
      | none => dlookup k input_dict := by
  rw [load_struct_inputs]
  rw [dictUpdate_dlookup, dlookup_reverse_of_nodup entries hK]
  cases dlookup k entries with
  | some v => rfl
  | none =>
      simp only [Option.getD_some]
      rw [dictUpdate_dlookup, dlookup_reverse_of_nodup input_dict hM]
      cases dlookup k input_dict with
      | some v => rfl
      | none => rfl

/-! Claim theorems. -/

/-- C1: with its default class argument (the instance's own runtime class),
`check_struct_schema` returns successfully exactly when every `(name,
expected_type)` pair produced by the schema collector is satisfied; a pair
with an empty expected type is satisfied by mere presence of the field, a
pair with a non-empty expected type exactly by a value that is an instance of
some accepted type (`expected_type` or one of its extra allowed types), and
an absent field satisfies nothing; at the first unmet requirement the call
raises `RequiredAttributeMissing` (naming the instance class and the key)
when the field is absent, and `RequiredAttributeInvalid` (carrying the key,
the declared expected type, the offending value and its runtime type) when
the field is present but unacceptable. -/
theorem check_struct_schema_spec (extra : PyClass → List PyClass) (inst : DSInstance) :
    (check_struct_schema extra inst none = Except.ok () ↔
      ∀ r ∈ required_attributes inst.cls, satisfiesReq extra inst.dict r = true) ∧
    (∀ k : String, satisfiesReq extra inst.dict (k, none) = (dlookup k inst.dict).isSome) ∧
    (∀ (k : String) (rt : PyClass) (v : PyValue), dlookup k inst.dict = some v →
      satisfiesReq extra inst.dict (k, some rt) =
        (rt :: extra rt).any (fun t => isinstance v t)) ∧
    (∀ (k : String) (rt : Option PyClass), dlookup k inst.dict = none →
      satisfiesReq extra inst.dict (k, rt) = false) ∧
    (∀ (pre : List (String × Option PyClass)) (k : String) (rt : Option PyClass)
        (post : List (String × Option PyClass)),
      required_attributes inst.cls = pre ++ (k, rt) :: post →
      (∀ r ∈ pre, satisfiesReq extra inst.dict r = true) →
      satisfiesReq extra inst.dict (k, rt) = false →
      ((dlookup k inst.dict = none →
          check_struct_schema extra inst none =
            Except.error (PyErr.RequiredAttributeMissing inst.cls.name k)) ∧
       (∀ v : PyValue, dlookup k inst.dict = some v →
          ∃ t1 : Option PyClass, dlookup k (required_attributes inst.cls) = some t1 ∧
            check_struct_schema extra inst none =
              Except.error (PyErr.RequiredAttributeInvalid k t1 v (typeOf v))))) := by
  refine ⟨?_, ?_, ?_, ?_, ?_⟩
  · rw [check_none_eq_some_self, check_struct_schema_eq]
    cases hf : (required_attributes inst.cls).find?
        (fun r => ! satisfiesReq extra inst.dict r) with
    | none =>
        simp only [hf]
        constructor
        · intro _ r hr
          have hp := List.find?_eq_none.mp hf r hr
          simpa using hp
        · intro _
          trivial
    | some r =>
        simp only [hf]
        constructor
        · intro h
          exact absurd h (by simp)
        · intro hall
          have hp := List.find?_some hf
          have hmem : r ∈ required_attributes inst.cls := List.mem_of_find?_eq_some hf
          have hs := hall r hmem
          simp [hs] at hp
  · intro k
    cases hd : dlookup k inst.dict with
    | none => simp [satisfiesReq, hd]
    | some v => simp [satisfiesReq, hd]
  · intro k rt v hd
    simp [satisfiesReq, hd]
  · intro k rt hd
    simp [satisfiesReq, hd]
  · intro pre k rt post hra hpre hfail
    have hfind : (required_attributes inst.cls).find?
        (fun r => ! satisfiesReq extra inst.dict r) = some (k, rt) := by
      rw [hra]
      refine find?_first_of_prefix _ pre (k, rt) post ?_ ?_
      · intro x hx
        simp [hpre x hx]
      · simp [hfail]
    have hcheck : check_struct_schema extra inst none = Except.error (errFor inst (k, rt)) := by
      rw [check_none_eq_some_self, check_struct_schema_eq, hfind]
    constructor
    · intro hd
      rw [hcheck, errFor, hd]
    · intro v hd
      have hmemk : k ∈ dkeys (required_attributes inst.cls) := by
        rw [hra]
        simp [dkeys]
      have hsome : (dlookup k (required_attributes inst.cls)).isSome = true :=
        (dlookup_isSome_iff _ _).mpr hmemk
      cases ht : dlookup k (required_attributes inst.cls) with
      | none => rw [ht] at hsome; simp at hsome
      | some t1 =>
          refine ⟨t1, rfl, ?_⟩
          rw [hcheck]
          simp only [errFor, mkInvalid, hd, ht]

theorem checkLoop_congr (extra : PyClass → List PyClass) (i1 i2 : DSInstance)
    (l : List (String × Option PyClass))
    (h1 : i1.cls.name = i2.cls.name)
    (h2 : required_attributes i1.cls = required_attributes i2.cls)
    (h3 : ∀ kk ∈ dkeys l, dlookup kk i1.dict = dlookup kk i2.dict) :
    checkLoop extra i1 l = checkLoop extra i2 l := by
  induction l with
  | nil => rfl
  | cons hd rest ih =>
      obtain ⟨key, rt⟩ := hd
      have hkey : dlookup key i1.dict = dlookup key i2.dict :=
        h3 key (by simp [dkeys])
      have h3r : ∀ kk ∈ dkeys rest, dlookup kk i1.dict = dlookup kk i2.dict := by
        intro kk hkk
        refine h3 kk ?_
        simp only [dkeys, List.map_cons, List.mem_cons]
        exact Or.inr (by simpa [dkeys] using hkk)
      cases hdl : dlookup key i2.dict with
      | none =>
          simp only [checkLoop, hkey, hdl, h1]
      | some v =>
          cases rt with
          | none =>
              simp only [checkLoop, hkey, hdl]
              exact ih h3r
          | some rtc =>
              cases hacc : (rtc :: extra rtc).any (fun t => isinstance v t) with
              | true =>
                  simp only [checkLoop, hkey, hdl, hacc, if_true]
                  exact ih h3r
              | false =>
                  simp only [checkLoop, hkey, hdl, hacc, Bool.false_eq_true, if_false]
                  exact congrArg Except.error (mkInvalid_congr i1 i2 key v h2)

/-- C1 witness: a `CartesianCoordinate` constructed with both `x` and `y`
passes the check. -/
theorem check_struct_schema_spec_witness :
    check_struct_schema get_extra_allowed_types
      ⟨CartesianC, [("x", PyValue.vInt 5), ("y", PyValue.vInt 12)]⟩ none = Except.ok () :=
  (check_struct_schema_spec get_extra_allowed_types
    ⟨CartesianC, [("x", PyValue.vInt 5), ("y", PyValue.vInt 12)]⟩).1.mpr (by decide)

/-- C2: field population merges the mapping first and the named fields on
top: a key named in the entries reads back with the entries' value, a key
only in the mapping reads back with the mapping's value, the populated
container holds exactly the keys of the two inputs, an absent mapping equals
an empty one, and setting a field whose name is not in the schema never
changes the outcome of validation. -/
theorem load_struct_inputs_spec :
    (∀ (M K : List (String × PyValue)) (k : String),
      (dkeys M).Nodup → (dkeys K).Nodup →
      (dlookup k (load_struct_inputs (some M) K) =
        match dlookup k K with
        | some v => some v
        | none => dlookup k M) ∧
      ((dlookup k (load_struct_inputs (some M) K)).isSome = true ↔
        k ∈ dkeys M ∨ k ∈ dkeys K)) ∧
    (∀ K : List (String × PyValue),
      load_struct_inputs none K = load_struct_inputs (some []) K) ∧
    (∀ (extra : PyClass → List PyClass) (c : PyClass) (d : List (String × PyValue))
        (k : String) (v : PyValue),
      k ∉ dkeys (required_attributes c) →
      check_struct_schema extra ⟨c, dictSet d k v⟩ none =
        check_struct_schema extra ⟨c, d⟩ none) := by
  refine ⟨?_, ?_, ?_⟩
  · intro M K k hM hK
    refine ⟨load_struct_inputs_dlookup M K k hM hK, ?_⟩
    rw [load_struct_inputs_dlookup M K k hM hK]
    cases hK1 : dlookup k K with
    | some v =>
        have hmemK : k ∈ dkeys K := (dlookup_isSome_iff k K).mp (by simp [hK1])
        simp [hmemK]
    | none =>
        have hnK : k ∉ dkeys K := by
          intro hm
          have := (dlookup_isSome_iff k K).mpr hm
          rw [hK1] at this
          simp at this
        cases hM1 : dlookup k M with
        | some v =>
            have hmemM : k ∈ dkeys M := (dlookup_isSome_iff k M).mp (by simp [hM1])
            simp [hmemM]
        | none =>
            have hnM : k ∉ dkeys M := by
              intro hm
              have := (dlookup_isSome_iff k M).mpr hm
              rw [hM1] at this
              simp at this
            simp [hnM, hnK]
  · intro K
    rfl
  · intro extra c d k v hk
    rw [check_none_eq_some_self, check_none_eq_some_self]
    have h3 : ∀ kk ∈ dkeys (required_attributes c),
        dlookup kk (dictSet d k v) = dlookup kk d := by
      intro kk hkk
      have hne : kk ≠ k := fun hkke => hk (hkke ▸ hkk)
      rw [dictSet_dlookup, if_neg hne]
    have hcl := checkLoop_congr extra ⟨c, dictSet d k v⟩ ⟨c, d⟩
      (required_attributes c) rfl rfl h3
    simp only [check_struct_schema]
    rw [hcl]

/-- C2 witness: the documented construction `DStruct(dict(k3 = v3), k1 = v1)`
with a colliding key: the named field wins, the mapping-only key persists. -/
theorem load_struct_inputs_spec_witness :
    dlookup "k1" (load_struct_inputs
        (some [("k1", PyValue.vStr "m1"), ("k3", PyValue.vStr "v3")])
        [("k1", PyValue.vStr "v1"), ("k2", PyValue.vStr "v2")]) =
      some (PyValue.vStr "v1") := by
  rw [(load_struct_inputs_spec.1 [("k1", PyValue.vStr "m1"), ("k3", PyValue.vStr "v3")]
    [("k1", PyValue.vStr "v1"), ("k2", PyValue.vStr "v2")] "k1" (by decide) (by decide)).1]
  rfl

/-- C3: the schema collector walks exactly the deduplicated (first
occurrence kept) depth-first ancestor enumeration with the universal root
type removed; the collected mapping has an entry for a name exactly when some
walked class declares a marker with that name, and a hierarchy with no
declarations collects the empty mapping (never an error). -/
theorem required_attributes_collector_spec (c : PyClass) :
    (extract_classes c =
      dedupe_list ((raw_ancestors c).filter (fun x => decide (x ≠ PyClass.obj)))) ∧
    (extract_classes c).Nodup ∧
    PyClass.obj ∉ extract_classes c ∧
    (∀ k : String, (dlookup k (collectMarkers c)).isSome = true ↔
      ∃ cl ∈ extract_classes c, (dlookup k cl.ownMarkers).isSome = true) ∧
    ((∀ cl ∈ extract_classes c, cl.ownMarkers = []) → collectMarkers c = []) :=
  ⟨extract_classes_eq c, extract_classes_nodup c, obj_not_mem_extract_classes c,
    collectMarkers_isSome_iff c, collectMarkers_of_no_markers c⟩

/-- C3 witness: `DStruct` itself declares nothing, so its collected schema is
empty. -/
theorem required_attributes_collector_spec_witness :
    collectMarkers DStructC = [] :=
  (required_attributes_collector_spec DStructC).2.2.2.2 (by decide)

/-- C4 counterexample: in `ChildC <: ParentC`, the child declares `a : str`
and the parent declares `a : int`; the collected schema records the parent's
`int`, not the most derived declaration, and validation accordingly rejects a
`str` value and accepts an `int` value. -/
theorem most_derived_wins_counterexample :
    dlookup "a" (collectMarkers ChildC) = some (some intC) ∧
    some (some intC) ≠ some (some strC) ∧
    check_struct_schema get_extra_allowed_types ⟨ChildC, [("a", PyValue.vStr "s")]⟩ none =
      Except.error (PyErr.RequiredAttributeInvalid "a" (some intC) (PyValue.vStr "s") strC) ∧
    check_struct_schema get_extra_allowed_types ⟨ChildC, [("a", PyValue.vInt 3)]⟩ none =
      Except.ok () :=
  ⟨rfl, by decide, rfl, rfl⟩

/-- C4 (amended): when the same attribute name is declared at several levels,
the collector records the expected type of the LAST marker occurrence in the
flattened deduplicated derived-to-ancestor traversal — i.e. the most
ancestral declaring class wins, not the most derived — and this collected
mapping is exactly the schema validation consults whenever no literal
`required_attributes` dictionary shadows the classproperty. -/
theorem collect_last_declaration_wins (c : PyClass) (k : String) :
    (dlookup k (collectMarkers c) =
      dlookup k ((((extract_classes c).map PyClass.ownMarkers).flatten).reverse)) ∧
    (findReqLit (lookupOrder c) = none → required_attributes c = collectMarkers c) := by
  refine ⟨collectMarkers_dlookup c k, ?_⟩
  intro h
  rw [required_attributes, h]

/-- C4 witness: for the child-parent pair, the reverse-order lookup and the
schema actually used by validation. -/
theorem collect_last_declaration_wins_witness :
    (dlookup "a" (collectMarkers ChildC) =
      dlookup "a" ((((extract_classes ChildC).map PyClass.ownMarkers).flatten).reverse)) ∧
    required_attributes ChildC = collectMarkers ChildC :=
  ⟨(collect_last_declaration_wins ChildC "a").1,
    (collect_last_declaration_wins ChildC "a").2 rfl⟩

/-- C5: the default `get_extra_allowed_types` returns the one other textual
string type for `str` and `unicode` and nothing for every other type, and for
a schema requiring `k : rt` with the field present, validation succeeds
exactly when the value is an instance of `rt` or of one of the extra allowed
types. -/
theorem get_extra_allowed_types_spec :
    get_extra_allowed_types strC = [unicodeC] ∧
    get_extra_allowed_types unicodeC = [strC] ∧
    (∀ t : PyClass, t ≠ strC → t ≠ unicodeC → get_extra_allowed_types t = []) ∧
    (∀ (c : PyClass) (d : List (String × PyValue)) (k : String) (rt : PyClass) (v : PyValue),
      required_attributes c = [(k, some rt)] →
      dlookup k d = some v →
      (check_struct_schema get_extra_allowed_types ⟨c, d⟩ none = Except.ok () ↔
        (isinstance v rt = true ∨
          ∃ t ∈ get_extra_allowed_types rt, isinstance v t = true))) := by
  refine ⟨rfl, rfl, ?_, ?_⟩
  · intro t h1 h2
    rw [get_extra_allowed_types, if_neg h1, if_neg h2]
  · intro c d k rt v hra hd
    rw [check_none_eq_some_self, check_struct_schema_eq]
    have hcls : (⟨c, d⟩ : DSInstance).cls = c := rfl
    rw [hcls, hra]
    cases hacc : (rt :: get_extra_allowed_types rt).any (fun t => isinstance v t) with
    | true =>
        have hsat : satisfiesReq get_extra_allowed_types d (k, some rt) = true := by
          simp only [satisfiesReq, hd]
          exact hacc
        rw [List.find?_cons_of_neg _ (by simp [hsat])]
        simp only [List.find?_nil]
        constructor
        · intro _
          have h2 : isinstance v rt = true ∨
              (get_extra_allowed_types rt).any (fun t => isinstance v t) = true := by
            simpa [List.any_cons] using hacc
          rcases h2 with h | h
          · exact Or.inl h
          · refine Or.inr ?_
            obtain ⟨t, ht, hti⟩ := List.any_eq_true.mp h
            exact ⟨t, ht, hti⟩
        · intro _
          trivial
    | false =>
        have hsat : satisfiesReq get_extra_allowed_types d (k, some rt) = false := by
          simp only [satisfiesReq, hd]
          exact hacc
        rw [List.find?_cons_of_pos _ (by simp [hsat])]
        constructor
        · intro h
          exact absurd h (by simp)
        · rintro (h | h)
          · rw [List.any_cons] at hacc
            simp [h] at hacc
          · obtain ⟨t, ht, hti⟩ := h
            have hany : (rt :: get_extra_allowed_types rt).any
                (fun t => isinstance v t) = true :=
              List.any_eq_true.mpr ⟨t, List.mem_cons_of_mem rt ht, hti⟩
            rw [hany] at hacc
            exact absurd hacc (by simp)

/-- C5 witness: `SlowInt` requires `value : int`, and the integer `9` is
accepted. -/
theorem get_extra_allowed_types_spec_witness :
    check_struct_schema get_extra_allowed_types
      ⟨SlowIntMarkC, [("value", PyValue.vInt 9)]⟩ none = Except.ok () :=
  (get_extra_allowed_types_spec.2.2.2 SlowIntMarkC [("value", PyValue.vInt 9)]
    "value" intC (PyValue.vInt 9) rfl rfl).mpr (Or.inl (by decide))

/-- C6: `struct_schema_check_on_init` is true for every class that declares
no literal flag anywhere in its lookup order; when the flag is true,
construction ends with the automatic validation call and fails exactly when
that call fails; when the flag is false, construction always succeeds
without validating, and a later explicit `check_struct_schema` call on the
constructed instance runs exactly the computation automatic validation would
have run. -/
theorem struct_schema_check_on_init_spec :
    (∀ c : PyClass, (∀ cl ∈ lookupOrder c, cl.initFlagOf = none) →
      struct_schema_check_on_init c = true) ∧
    (∀ (extra : PyClass → List PyClass) (c : PyClass)
        (M : Option (List (String × PyValue))) (K : List (String × PyValue)),
      (struct_schema_check_on_init c = true →
        DStruct_init extra c M K =
          (check_struct_schema extra (loadedInstance c M K) none).map
            (fun _ => loadedInstance c M K)) ∧
      (struct_schema_check_on_init c = false →
        DStruct_init extra c M K = Except.ok (loadedInstance c M K) ∧
        (∀ inst : DSInstance, DStruct_init extra c M K = Except.ok inst →
          check_struct_schema extra inst none =
            check_struct_schema extra (loadedInstance c M K) none))) := by
  constructor
  · exact fun c h => struct_schema_check_on_init_default c h
  · intro extra c M K
    constructor
    · intro h
      rw [DStruct_init, if_pos h]
    · intro h
      have hne : ¬ struct_schema_check_on_init c = true := by simp [h]
      constructor
      · rw [DStruct_init, if_neg hne]
      · intro inst hinst
        rw [DStruct_init, if_neg hne] at hinst
        have : loadedInstance c M K = inst := by
          injection hinst
        rw [← this]

/-- C6 witness: `Product` disables the construction-time check; constructing
it with a missing required attribute succeeds, and the deferred explicit
check then reports the missing attribute. -/
theorem struct_schema_check_on_init_spec_witness :
    DStruct_init get_extra_allowed_types ProductC none [] =
      Except.ok (loadedInstance ProductC none []) ∧
    check_struct_schema get_extra_allowed_types (loadedInstance ProductC none []) none =
      Except.error (PyErr.RequiredAttributeMissing "Product" "name") := by
  constructor
  · exact ((struct_schema_check_on_init_spec.2 get_extra_allowed_types
      ProductC none []).2 (by decide)).1
  · rfl

/-- C7 counterexample: the marker-authored `Sub <: SlowInt` requires both `w`
and `value`, but the literal-dictionary-authored twin only requires `value`
(the inherited literal mapping shadows the collector, hiding the subclass's
own marker), so identical construction inputs raise in one style and succeed
in the other. -/
theorem literal_mapping_equivalence_counterexample :
    required_attributes SubMarkC = [("w", none), ("value", some intC)] ∧
    required_attributes SubLitC = [("value", some intC)] ∧
    DStruct_init get_extra_allowed_types SubMarkC none [("value", PyValue.vInt 9)] =
      Except.error (PyErr.RequiredAttributeMissing "Sub" "w") ∧
    DStruct_init get_extra_allowed_types SubLitC none [("value", PyValue.vInt 9)] =
      Except.ok (loadedInstance SubLitC none [("value", PyValue.vInt 9)]) :=
  ⟨rfl, rfl, rfl, rfl⟩

/-- C7 (amended): construction and validation behavior depends on the class
only through its name, its discovered `required_attributes` mapping and its
construction-time flag, so a type carrying a literal mapping equal to the
schema its marker-based twin's collector would produce behaves identically to
that twin; the equivalence does not extend to subtypes that declare
additional markers, since an inherited literal mapping shadows the
collector. -/
theorem literal_mapping_equivalence (extra : PyClass → List PyClass) (c1 c2 : PyClass)
    (h1 : c1.name = c2.name) (h2 : required_attributes c1 = required_attributes c2)
    (h3 : struct_schema_check_on_init c1 = struct_schema_check_on_init c2)
    (M : Option (List (String × PyValue))) (K : List (String × PyValue)) :
    resultDict (DStruct_init extra c1 M K) = resultDict (DStruct_init extra c2 M K) := by
  rw [DStruct_init, DStruct_init, h3]
  cases hb : struct_schema_check_on_init c2 with
  | false =>
      rw [if_neg (by simp), if_neg (by simp)]
      rfl
  | true =>
      rw [if_pos rfl, if_pos rfl]
      have hchk : check_struct_schema extra (loadedInstance c1 M K) none =
          check_struct_schema extra (loadedInstance c2 M K) none :=
        check_struct_schema_cls_congr extra c1 c2 _ h1 h2
      rw [hchk]
      cases hc : check_struct_schema extra (loadedInstance c2 M K) none with
      | error e => rfl
      | ok u => rfl

/-- C7 witness: `SlowInt` authored with a marker and with the literal
dictionary accept the same valid input with the same resulting fields. -/
theorem literal_mapping_equivalence_witness :
    resultDict (DStruct_init get_extra_allowed_types SlowIntMarkC none
        [("value", PyValue.vInt 9)]) =
      resultDict (DStruct_init get_extra_allowed_types SlowIntLitC none
        [("value", PyValue.vInt 9)]) :=
  literal_mapping_equivalence get_extra_allowed_types SlowIntMarkC SlowIntLitC
    rfl rfl rfl none [("value", PyValue.vInt 9)]

/-- C8: validation is all-or-first-failure: whenever the collected schema
splits as `pre ++ r :: post` with every requirement of `pre` satisfied and
`r` unmet, the check raises exactly the exception for `r` — whatever `post`
contains, so later violations are neither evaluated nor collected — and it
never reports success while any requirement is unmet. -/
theorem first_failure_only (extra : PyClass → List PyClass) (inst : DSInstance)
    (pre : List (String × Option PyClass)) (r : String × Option PyClass)
    (post : List (String × Option PyClass))
    (hra : required_attributes inst.cls = pre ++ r :: post)
    (hpre : ∀ x ∈ pre, satisfiesReq extra inst.dict x = true)
    (hr : satisfiesReq extra inst.dict r = false) :
    check_struct_schema extra inst none = Except.error (errFor inst r) ∧
    check_struct_schema extra inst none ≠ Except.ok () := by
  have hfind : (required_attributes inst.cls).find?
      (fun x => ! satisfiesReq extra inst.dict x) = some r := by
    rw [hra]
    exact find?_first_of_prefix _ pre r post (fun x hx => by simp [hpre x hx]) (by simp [hr])
  have hchk : check_struct_schema extra inst none = Except.error (errFor inst r) := by
    rw [check_none_eq_some_self, check_struct_schema_eq, hfind]
  refine ⟨hchk, ?_⟩
  rw [hchk]
  simp

/-- C8 witness: a `MapLocation` constructed with no fields violates all three
requirements; the reported error is the one for the first requirement
(`latitude`), identical no matter what follows it in the schema. -/
theorem first_failure_only_witness :
    check_struct_schema get_extra_allowed_types ⟨MapLocationC, []⟩ none =
      Except.error (PyErr.RequiredAttributeMissing "MapLocation" "latitude") :=
  (first_failure_only get_extra_allowed_types ⟨MapLocationC, []⟩ []
    ("latitude", some floatC) [("longitude", some floatC), ("label", some BaseLabelC)]
    rfl (fun x hx => absurd hx (List.not_mem_nil x)) rfl).1

/-- C9 counterexample: with `Product` (validation deferred), construction
succeeds, no `has_validated` attribute exists on the instance, yet the
internal loaded marker `_struct_has_loaded` is already true although initial
validation has not run (the deferred check still fails); and even an
instance whose construction did validate carries no `has_validated`
attribute. -/
theorem has_validated_counterexample :
    DStruct_init get_extra_allowed_types ProductC none [] =
      Except.ok (loadedInstance ProductC none []) ∧
    dlookup "has_validated" (loadedInstance ProductC none []).dict = none ∧
    dlookup "_struct_has_loaded" (loadedInstance ProductC none []).dict =
      some (PyValue.vBool true) ∧
    check_struct_schema get_extra_allowed_types (loadedInstance ProductC none []) none ≠
      Except.ok () ∧
    DStruct_init get_extra_allowed_types CartesianC none
        [("x", PyValue.vInt 0), ("y", PyValue.vInt 0)] =
      Except.ok (loadedInstance CartesianC none
        [("x", PyValue.vInt 0), ("y", PyValue.vInt 0)]) ∧
    dlookup "has_validated" (loadedInstance CartesianC none
        [("x", PyValue.vInt 0), ("y", PyValue.vInt 0)]).dict = none := by
  refine ⟨rfl, rfl, rfl, ?_, rfl, rfl⟩
  rw [show check_struct_schema get_extra_allowed_types
      (loadedInstance ProductC none []) none =
      Except.error (PyErr.RequiredAttributeMissing "Product" "name") from rfl]
  simp

/-- C9 (amended): the marker the constructor maintains is
`_struct_has_loaded`: it is set to true immediately after field population,
before — and regardless of — any validation, so it is already true on every
constructed instance (deferred validation included), and construction writes
no `has_validated` attribute (such a key can only come from the caller's own
inputs). -/
theorem struct_has_loaded_spec (c : PyClass) (M : Option (List (String × PyValue)))
    (K : List (String × PyValue)) :
    dlookup "_struct_has_loaded" (loadedInstance c M K).dict = some (PyValue.vBool true) ∧
    (∀ (extra : PyClass → List PyClass) (inst : DSInstance),
      DStruct_init extra c M K = Except.ok inst →
      dlookup "_struct_has_loaded" inst.dict = some (PyValue.vBool true) ∧
      dlookup "has_validated" inst.dict =
        dlookup "has_validated" (load_struct_inputs M K)) := by
  refine ⟨loadedInstance_marker c M K, ?_⟩
  intro extra inst h
  have hinst : inst = loadedInstance c M K := by
    rw [DStruct_init] at h
    by_cases hb : struct_schema_check_on_init c = true
    · rw [if_pos hb] at h
      cases hc : check_struct_schema extra (loadedInstance c M K) none with
      | error e => rw [hc] at h; exact absurd h (by simp [Except.map])
      | ok u =>
          rw [hc] at h
          simpa [Except.map] using h.symm
    · rw [if_neg hb] at h
      injection h with h2
      exact h2.symm
  rw [hinst]
  refine ⟨loadedInstance_marker c M K, ?_⟩
  exact loadedInstance_dlookup_other c M K "has_validated" (by decide)

/-- C9 witness: a validated `CartesianCoordinate` instance carries the loaded
marker. -/
theorem struct_has_loaded_spec_witness :
    dlookup "_struct_has_loaded" (loadedInstance CartesianC none
      [("x", PyValue.vInt 0), ("y", PyValue.vInt 0)]).dict = some (PyValue.vBool true) ∧
    dlookup "has_validated" (loadedInstance CartesianC none
      [("x", PyValue.vInt 0), ("y", PyValue.vInt 0)]).dict = none := by
  have h := (struct_has_loaded_spec CartesianC none
    [("x", PyValue.vInt 0), ("y", PyValue.vInt 0)]).2 get_extra_allowed_types
    (loadedInstance CartesianC none [("x", PyValue.vInt 0), ("y", PyValue.vInt 0)]) rfl
  exact ⟨h.1, h.2.trans rfl⟩

/-- C10: when `check_struct_schema` is invoked with an explicit class whose
schema requires `k : rt`, the instance holds an unacceptable value at `k`,
and `k` is absent from the schema of the instance's own runtime class, then
building the `RequiredAttributeInvalid` diagnostic itself fails and the
caller observes `KeyError k` instead of the documented invalid-attribute
error. -/
theorem explicit_class_keyerror (extra : PyClass → List PyClass) (inst : DSInstance)
    (clazz : PyClass) (pre : List (String × Option PyClass)) (k : String) (rt : PyClass)
    (post : List (String × Option PyClass))
    (hra : required_attributes clazz = pre ++ (k, some rt) :: post)
    (hpre : ∀ x ∈ pre, satisfiesReq extra inst.dict x = true)
    (v : PyValue) (hd : dlookup k inst.dict = some v)
    (hbad : (rt :: extra rt).any (fun t => isinstance v t) = false)
    (habsent : dlookup k (required_attributes inst.cls) = none) :
    check_struct_schema extra inst (some clazz) = Except.error (PyErr.KeyError k) := by
  have hsat : satisfiesReq extra inst.dict (k, some rt) = false := by
    simp only [satisfiesReq, hd]
    exact hbad
  have hfind : (required_attributes clazz).find?
      (fun x => ! satisfiesReq extra inst.dict x) = some (k, some rt) := by
    rw [hra]
    exact find?_first_of_prefix _ pre (k, some rt) post
      (fun x hx => by simp [hpre x hx]) (by simp [hsat])
  rw [check_struct_schema_eq, hfind]
  simp only [errFor, hd, mkInvalid, habsent]

/-- C10 witness: checking a plain `DStruct` instance against `IntReq` (which
requires `a : int`) with a string stored at `a` yields `KeyError` for `a`,
not the invalid-attribute error. -/
theorem explicit_class_keyerror_witness :
    check_struct_schema get_extra_allowed_types
      ⟨DStructC, [("a", PyValue.vStr "x")]⟩ (some IntReqC) =
      Except.error (PyErr.KeyError "a") :=
  explicit_class_keyerror get_extra_allowed_types ⟨DStructC, [("a", PyValue.vStr "x")]⟩
    IntReqC [] "a" intC [] rfl (fun x hx => absurd hx (List.not_mem_nil x))
    (PyValue.vStr "x") rfl (by decide) rfl
